import Mathlib

/-
Verification of the loads-broker orchestration core: a shallow embedding of
`loadsbroker/aws.py`, `loadsbroker/extensions.py` and `loadsbroker/util.py`,
together with theorems settling the specification's claims about them.

Conventions of the embedding:
* Python dictionaries become association lists with last-write-wins update
  (`dictSet`) and first-match lookup (`alookup`); insertion order is kept,
  matching Python dict iteration order.
* Wall-clock instants (`datetime`) become integers counting seconds.
* Fractional delays in the ping loop are counted in centiseconds, so that
  `0.5 s = 50`, `randint(0, max_jitter * 100)` lands in `[0, maxJitterC]`
  and `delay * 2` stays exact.
* Fallible code returns `Except`; external collaborators (the cloud API,
  the HTTP client, the wrapped function of `retry`) are oracle parameters.
-/

set_option linter.unusedVariables false

namespace Loads

/-- Association-list lookup with decidable-equality keys: first match wins,
mirroring a Python dict in which `dictSet` keeps keys unique. -/
def alookup {α β : Type} [DecidableEq α] : List (α × β) → α → Option β
  | [], _ => none
  | (k', v) :: rest, k => if k' = k then some v else alookup rest k

/-- Python dict assignment `d[k] = v`: replace the binding in place if the key
exists, otherwise append the new binding at the end. -/
def dictSet {α β : Type} [DecidableEq α] : List (α × β) → α → β → List (α × β)
  | [], k, v => [(k, v)]
  | (k', v') :: rest, k, v =>
      if k' = k then (k, v) :: rest else (k', v') :: dictSet rest k v

/-- Python `del d[k]`: drop the binding for `k`. -/
def dictErase {α β : Type} [DecidableEq α] : List (α × β) → α → List (α × β)
  | [], _ => []
  | (k', v') :: rest, k =>
      if k' = k then rest else (k', v') :: dictErase rest k

theorem alookup_dictSet_self {α β : Type} [DecidableEq α]
    (m : List (α × β)) (k : α) (v : β) : alookup (dictSet m k v) k = some v := by
  induction m with
  | nil => simp [dictSet, alookup]
  | cons hd tl ih =>
      obtain ⟨k', v'⟩ := hd
      by_cases h : k' = k
      · simp [dictSet, alookup, h]
      · simp [dictSet, alookup, h, ih]

theorem alookup_dictSet_ne {α β : Type} [DecidableEq α]
    (m : List (α × β)) (k k' : α) (v : β) (h : k' ≠ k) :
    alookup (dictSet m k' v) k = alookup m k := by
  induction m with
  | nil => simp [dictSet, alookup, h]
  | cons hd tl ih =>
      obtain ⟨k0, v0⟩ := hd
      by_cases h0 : k0 = k'
      · simp [dictSet, alookup, h0, h]
      · by_cases h1 : k0 = k
        · simp [dictSet, alookup, h0, h1, Ne.symm h]
        · simp [dictSet, alookup, h0, h1, ih]

/-- A boto EC2 instance, restricted to the attributes the pool reads.  Tags
are optional strings: `none` models an absent tag, `some ""` an emptied one.
`launchTime` and the clock are integers counting seconds. -/
structure Instance where
  id : String
  regionName : String
  instanceType : String
  state : String
  launchTime : Int
  runIdTag : Option String
  uuidTag : Option String
deriving DecidableEq, Repr

/-- Python truthiness of `tags.get(key)`: the tag is present and non-empty. -/
def truthyTag : Option String → Bool
  | none => false
  | some s => decide (s ≠ "")

/-- `loadsbroker.aws.available_instance`: running instances are usable, and
pending instances are usable only when launched less than 2 minutes before
`now` (`oldest < launched` with `oldest = now - 120 s`). -/
def available_instance (now : Int) (inst : Instance) : Bool :=
  if inst.state = "running" then true
  else if inst.state = "pending" then decide (now - 120 < inst.launchTime)
  else false

/-- The fixed region table `loadsbroker.aws.AWS_REGIONS`. -/
def AWS_REGIONS : List String :=
  ["ap-northeast-1", "ap-southeast-1", "ap-southeast-2",
   "eu-west-1",
   "sa-east-1",
   "us-east-1", "us-west-1", "us-west-2"]

/-- `loadsbroker.aws.get_ami`, acting on one region's virtualization-type →
AMI-id map (`AWS_AMI_IDS[region]`).  The raise of `KeyError` when the chosen
virtualization type is absent becomes `Except.error` carrying that type. -/
def get_ami (amis : List (String × String)) (instance_type : String) :
    Except String String :=
  let inst_type :=
    if instance_type.take 2 ∈ ["m1", "m2", "c1", "t1"]
    then "paravirtual" else "hvm"
  match alookup amis inst_type with
  | some ami => Except.ok ami
  | none => Except.error inst_type

/-- The virtualization variant the spec says `get_ami` selects, written from
the claim: paravirtual exactly when the first two characters of the instance
type are one of m1, m2, c1, t1, and hvm otherwise. -/
def claimVariant (instance_type : String) : String :=
  if instance_type.take 2 = "m1" ∨ instance_type.take 2 = "m2" ∨
     instance_type.take 2 = "c1" ∨ instance_type.take 2 = "t1"
  then "paravirtual" else "hvm"

/-- `loadsbroker.util.retry(attempts)` applied to a function: the wrapped
call is replayed from `attempt = 1` while `attempt < attempts`; an invocation
that raises is swallowed and retried, and when the loop exhausts, the bare
`raise` escapes (modelled as `Except.error ()`).  The oracle `f` gives each
invocation's outcome by attempt number; the second component counts the
invocations performed. -/
def retryFrom {E α : Type} (f : Nat → Except E α) (attempts : Nat) :
    Nat → Except Unit α × Nat
  | attempt =>
    if _h : attempt < attempts then
      match f attempt with
      | Except.ok a => (Except.ok a, 1)
      | Except.error _ =>
          let r := retryFrom f attempts (attempt + 1)
          (r.1, r.2 + 1)
    else (Except.error (), 0)
termination_by attempt => attempts - attempt
decreasing_by omega

/-- The wrapper produced by `retry(attempts)`: the loop starts at attempt 1. -/
def retryCall {E α : Type} (f : Nat → Except E α) (attempts : Nat) :
    Except Unit α × Nat :=
  retryFrom f attempts 1

/-- Outcome of one `AsyncHTTPClient.fetch` call: completed without raising,
raised the builtin `ConnectionError`, or raised a tornado `HTTPError` for an
HTTP response with status ≥ 400 (the client's default `raise_error=True`). -/
inductive FetchOutcome : Type
  | ok : FetchOutcome
  | connError : FetchOutcome
  | httpError (status : Nat) : FetchOutcome
deriving DecidableEq, Repr

/-- How a call of `Ping.ping` finishes: returns `True`, re-raises the last
`ConnectionError` (the bare `raise`), or lets an `HTTPError` propagate. -/
inductive PingResult : Type
  | ok : PingResult
  | connError : PingResult
  | httpError (status : Nat) : PingResult
deriving DecidableEq, Repr

/-- The `while True` loop of `loadsbroker.extensions.Ping.ping`, with delays
in centiseconds.  `fetch` gives each attempt's outcome and `ent` is the
entropy behind `randint(0, max_jitter * 100)`, reduced modulo
`maxJitterC + 1` so the jitter lands in `[0, maxJitterC]`.  Returns the list
of waits performed (each `delay + jitter`) and the final outcome; on a
connection failure the loop waits, increments `attempt`, doubles the delay
up to `maxDelayC`, and re-raises once `attempt ≥ attempts`. -/
def pingFrom (fetch : Nat → FetchOutcome) (ent : Nat → Nat)
    (attempts maxJitterC maxDelayC : Nat) :
    Nat → Nat → List Nat × PingResult
  | attempt, delay =>
    match fetch attempt with
    | FetchOutcome.ok => ([], PingResult.ok)
    | FetchOutcome.httpError s => ([], PingResult.httpError s)
    | FetchOutcome.connError =>
        let jitter := ent attempt % (maxJitterC + 1)
        let wait := delay + jitter
        if _h : attempt + 1 ≥ attempts then ([wait], PingResult.connError)
        else
          let r := pingFrom fetch ent attempts maxJitterC maxDelayC
            (attempt + 1) (min (delay * 2) maxDelayC)
          (wait :: r.1, r.2)
termination_by attempt => attempts - attempt
decreasing_by omega

/-- `Ping.ping(instance, url, attempts=5, delay=0.5, max_jitter=0.2,
max_delay=15)`: the loop starts at attempt 1 with the initial delay. -/
def Ping.ping (fetch : Nat → FetchOutcome) (ent : Nat → Nat)
    (attempts delayC maxJitterC maxDelayC : Nat) : List Nat × PingResult :=
  pingFrom fetch ent attempts maxJitterC maxDelayC 1 delayC

/-- The delay sequence the spec describes: starts at `d` and doubles after
each failure, capped at `M` (centiseconds). -/
def delaySeq (d M : Nat) : Nat → Nat
  | 0 => d
  | i + 1 => min (delaySeq d M i * 2) M

/-- The mutable state of `EC2Pool` that the claims touch: the per-region
free pool `_instances` (a defaultdict of lists) and the recovery buckets
`_recovered` keyed by `(RunId, Uuid)`. -/
structure Pool where
  instances : List (String × List Instance)
  recovered : List ((String × String) × List Instance)
deriving DecidableEq, Repr

/-- `defaultdict(list)` read: a missing region yields the empty list. -/
def poolGet (m : List (String × List Instance)) (region : String) :
    List Instance :=
  (alookup m region).getD []

/-- `self._instances[region].append(inst)` on a defaultdict. -/
def poolAppend (m : List (String × List Instance)) (region : String)
    (inst : Instance) : List (String × List Instance) :=
  dictSet m region (poolGet m region ++ [inst])

/-- Routing of one observed instance inside `EC2Pool._recover`: instances
that are no longer available go to the free pool for later reaping; available
instances carrying truthy `RunId` and `Uuid` tags go to the recovery bucket
for that pair; everything else goes to the free pool. -/
def recoverStep (now : Int) (p : Pool) (inst : Instance) : Pool :=
  if ¬ available_instance now inst then
    { p with instances := poolAppend p.instances inst.regionName inst }
  else if truthyTag inst.runIdTag ∧ truthyTag inst.uuidTag then
    match inst.runIdTag, inst.uuidTag with
    | some r, some u =>
        let bucket := ((alookup p.recovered (r, u)).getD []) ++ [inst]
        { p with recovered := dictSet p.recovered (r, u) bucket }
    | _, _ => { p with instances := poolAppend p.instances inst.regionName inst }
  else
    { p with instances := poolAppend p.instances inst.regionName inst }

/-- `EC2Pool._recover` over the flattened list of instances the region scans
returned, starting from a freshly initialized pool. -/
def recover (now : Int) (observed : List Instance) : Pool :=
  observed.foldl (recoverStep now) { instances := [], recovered := [] }

/-- `EC2Pool._locate_recovered_instances`: pop the whole recovery bucket for
`(run_id, uuid)`, or return `[]` when there is none. -/
def locateRecovered (p : Pool) (run_id uuid : String) :
    List Instance × Pool :=
  match alookup p.recovered (run_id, uuid) with
  | none => ([], p)
  | some insts =>
      (insts, { p with recovered := dictErase p.recovered (run_id, uuid) })

/-- The `for` loop of `EC2Pool._locate_existing_instances`: walk the region's
free list, collecting available instances of the requested type into
`instances` and everything else into `remaining`, and `break` as soon as
`len(instances) > count`.  Returns the collected instances and the rebuilt
free list `region_instances[removed:] + remaining`. -/
def locateGo (now : Int) (count : Int) (inst_type : String) :
    List Instance → List Instance → List Instance →
    List Instance × List Instance
  | [], insts, remaining => (insts, remaining)
  | i :: rest, insts, remaining =>
      let acc :=
        if available_instance now i ∧ inst_type = i.instanceType
        then (insts ++ [i], remaining)
        else (insts, remaining ++ [i])
      if (acc.1.length : Int) > count then (acc.1, rest ++ acc.2)
      else locateGo now count inst_type rest acc.1 acc.2

/-- `EC2Pool._locate_existing_instances(count, inst_type, region)`. -/
def locateExisting (now : Int) (count : Int) (inst_type region : String)
    (p : Pool) : List Instance × Pool :=
  let r := locateGo now count inst_type (poolGet p.instances region) [] []
  (r.1, { p with instances := dictSet p.instances region r.2 })

/-- The cloud-side effect of `conn.create_tags` on one instance during
`request_instances`: RunId and Uuid are set for the run. -/
def Instance.withTags (i : Instance) (run_id uuid : String) : Instance :=
  { i with runIdTag := some run_id, uuidTag := some uuid }

/-- `EC2Pool.request_instances`: unknown regions raise `LoadsException`;
otherwise drain the recovery bucket, pull matching free instances for the
remaining shortfall, create `num = count - len(instances)` fresh instances
through the cloud API when `num > 0` (`alloc` models
`conn.run_instances(min_count=num, max_count=num)`), and tag the final set
when filters are enabled.  Returns the collection's instances, the pool
state left behind, and the number of instances created. -/
def request_instances (p : Pool) (now : Int) (alloc : Nat → List Instance)
    (run_id uuid : String) (count : Int) (inst_type region : String)
    (useFilters : Bool) :
    Except Unit (List Instance × Pool × Nat) :=
  if region ∈ AWS_REGIONS then
    let rp := locateRecovered p run_id uuid
    let remaining_count := count - rp.1.length
    let lp := locateExisting now remaining_count inst_type region rp.2
    let insts := rp.1 ++ lp.1
    let num := count - insts.length
    let created := if num > 0 then num.toNat else 0
    let all := insts ++ (if num > 0 then alloc num.toNat else [])
    let tagged := if useFilters
      then all.map (fun i => i.withTags run_id uuid) else all
    Except.ok (tagged, lp.2, created)
  else Except.error ()

/-- The cloud-side effect of the `create_tags` call in
`EC2Pool.release_instances`: both run tags are emptied, not removed. -/
def Instance.detag (i : Instance) : Instance :=
  { i with runIdTag := some "", uuidTag := some "" }

/-- `EC2Pool.release_instances(collection)`: the region is read off the
first instance of the collection (an empty collection would raise an
`IndexError`, modelled as `Except.error`), the run tags are emptied when
filters are enabled, and the members are appended to that region's free
pool. -/
def release_instances (p : Pool) (coll : List Instance) (useFilters : Bool) :
    Except Unit Pool :=
  match coll with
  | [] => Except.error ()
  | first :: _ =>
      let region := first.regionName
      let released := if useFilters then coll.map Instance.detag else coll
      Except.ok
        { p with instances :=
            dictSet p.instances region (poolGet p.instances region ++ released) }

/-- The per-region loop of `EC2Pool.reap_instances`: terminate each region's
instances in insertion order; the first failing `terminate_instances` call
propagates out of the coroutine and the remaining regions are never
reached.  Returns the termination calls issued and the escaped error. -/
def reapLoop (terminate : String → List String → Except Unit Unit) :
    List (String × List Instance) →
    List (String × List String) × Option Unit
  | [] => ([], none)
  | (region, insts) :: rest =>
      let ids := insts.map Instance.id
      match terminate region ids with
      | Except.ok _ =>
          let r := reapLoop terminate rest
          ((region, ids) :: r.1, r.2)
      | Except.error e => ([(region, ids)], some e)

/-- `EC2Pool.reap_instances`: the whole free-pool map is swapped for an empty
`defaultdict(list)` before any termination is issued; the loop then runs on
the removed map.  Returns the new (empty) map, the termination calls issued,
and the error that escaped, if any. -/
def reap_instances (terminate : String → List String → Except Unit Unit)
    (p : Pool) :
    List (String × List Instance) × List (String × List String) × Option Unit :=
  ([], reapLoop terminate p.instances)

/-- An instance together with its mutable state bag, as held by the
collection the extensions operate on (only the `nonresponsive` flag matters
to the fan-out claims). -/
structure BagInst where
  inst : Instance
  nonresponsive : Bool
deriving DecidableEq, Repr

/-- Modelled from the spec: the collection's *live* instances — the class
holding `map` is not under `src/`, and the spec says instances whose state
bag has `nonresponsive = true` are skipped. -/
def liveInstances (coll : List BagInst) : List BagInst :=
  coll.filter (fun b => ¬ b.nonresponsive)

/-- Modelled from the spec: the invocation loop behind `collection.map` —
each live instance's `fn` outcome (a caught-and-recorded `Except.error` on
exception, never aborting the peers) is collected in input order, and the
second component records which instances `fn` was actually invoked on. -/
def collectionMapGo {E α : Type} (fn : BagInst → Except E α) :
    List BagInst → List (Except E α) × List BagInst
  | [] => ([], [])
  | b :: rest =>
      let r := fn b
      let rs := collectionMapGo fn rest
      (r :: rs.1, b :: rs.2)

/-- Modelled from the spec: `collection.map(fn)` — the defining class is not
under `src/` (only callers in `loadsbroker/extensions.py` are).  Per the
spec, `fn` is applied to every live instance concurrently; exceptions from
`fn` are caught, logged and recorded as per-instance failures, and the
results come back in input order. -/
def collectionMap {E α : Type} (fn : BagInst → Except E α)
    (coll : List BagInst) : List (Except E α) × List BagInst :=
  collectionMapGo fn (liveInstances coll)

/-- Whether a run tag counts as empty: absent, or present as `""`. -/
def tagEmpty : Option String → Bool
  | none => true
  | some s => decide (s = "")

/-- Python `str.split(sep)` for a one-character separator: split on every
occurrence, keeping empty pieces; the result is never empty. -/
def splitOnChar (sep : Char) : List Char → List (List Char)
  | [] => [[]]
  | c :: cs =>
      if c = sep then [] :: splitOnChar sep cs
      else
        match splitOnChar sep cs with
        | [] => [[c]]
        | piece :: rest => (c :: piece) :: rest

/-- `str.split(sep)` on Lean strings via their character lists. -/
def pySplit (sep : Char) (s : String) : List String :=
  (splitOnChar sep s.data).map (fun l => String.mk l)

/-- What `string.Template.substitute` can raise: `KeyError` for a
placeholder missing from the dict, `ValueError` for an invalid `$`
occurrence. -/
inductive SubstError : Type
  | keyError (name : String)
  | valueError
deriving DecidableEq, Repr

/-- The opening brace character, kept out of literals. -/
def lbrace : Char := Char.ofNat 123

/-- The closing brace character, kept out of literals. -/
def rbrace : Char := Char.ofNat 125

/-- First character class of `string.Template`'s `idpattern`
(`[_a-zA-Z]`, ASCII). -/
def isIdStart (c : Char) : Bool := c.isAlpha || c = '_'

/-- Continuation character class of `string.Template`'s `idpattern`
(`[_a-zA-Z0-9]`, ASCII). -/
def isIdChar (c : Char) : Bool := c.isAlpha || c.isDigit || c = '_'

theorem length_dropWhile_le {α : Type} (p : α → Bool) (l : List α) :
    (l.dropWhile p).length ≤ l.length := by
  induction l with
  | nil => simp [List.dropWhile]
  | cons a l ih =>
      by_cases h : p a = true
      · simpa [List.dropWhile, h] using le_trans ih (Nat.le_succ _)
      · simp [List.dropWhile, h]

/-- `string.Template(tmpl).substitute(dct)` over the template's character
list: `$$` is an escaped dollar, `$name` and a braced `$` + name are
replaced by `dct[name]` (`KeyError` when absent), and any other `$`
occurrence is an invalid placeholder (`ValueError`). -/
def substList (dct : List (String × String)) :
    List Char → Except SubstError (List Char)
  | [] => Except.ok []
  | '$' :: rest =>
      match rest with
      | [] => Except.error SubstError.valueError
      | d :: rest2 =>
          if d = '$' then
            match substList dct rest2 with
            | Except.ok l => Except.ok ('$' :: l)
            | Except.error e => Except.error e
          else if d = lbrace then
            let idPart := rest2.takeWhile isIdChar
            match h : rest2.dropWhile isIdChar with
            | [] => Except.error SubstError.valueError
            | b :: rest3 =>
                let okId :=
                  match idPart with
                  | [] => false
                  | c0 :: _ => isIdStart c0
                if b = rbrace ∧ okId = true then
                  match alookup dct (String.mk idPart) with
                  | some v =>
                      match substList dct rest3 with
                      | Except.ok l => Except.ok (v.data ++ l)
                      | Except.error e => Except.error e
                  | none => Except.error (SubstError.keyError (String.mk idPart))
                else Except.error SubstError.valueError
          else if isIdStart d then
            let name := String.mk (d :: rest2.takeWhile isIdChar)
            match alookup dct name with
            | some v =>
                match substList dct (rest2.dropWhile isIdChar) with
                | Except.ok l => Except.ok (v.data ++ l)
                | Except.error e => Except.error e
            | none => Except.error (SubstError.keyError name)
          else Except.error SubstError.valueError
  | c :: cs =>
      match substList dct cs with
      | Except.ok l => Except.ok (c :: l)
      | Except.error e => Except.error e
termination_by l => l.length
decreasing_by
  · simp; omega
  · have hle := length_dropWhile_le isIdChar cs
    rw [h] at hle
    simp at hle ⊢
    omega
  · have hle := length_dropWhile_le isIdChar cs
    simp
    omega
  · simp

/-- One iteration of the dict-unpacking loop in `Docker.substitute_names`:
a line is split on `=` and contributes a binding only when it splits into
exactly two parts; later lines overwrite earlier ones. -/
def envStep (acc : List (String × String)) (line : String) :
    List (String × String) :=
  match pySplit '=' line with
  | [k, v] => dictSet acc k v
  | _ => acc

/-- The dict `Docker.substitute_names` unpacks from a newline-separated
`NAME=value` block. -/
def envDict (dct_string : String) : List (String × String) :=
  (pySplit '\n' dct_string).foldl envStep []

/-- `loadsbroker.extensions.Docker.substitute_names(tmpl_string,
dct_string)`. -/
def substitute_names (tmpl_string dct_string : String) :
    Except SubstError String :=
  match substList (envDict dct_string) tmpl_string.data with
  | Except.ok l => Except.ok (String.mk l)
  | Except.error e => Except.error e

/-- The `added_env` block `Docker.run_containers` builds for one instance:
`HOST_IP`, `PRIVATE_IP`, `STATSD_HOST` and `STATSD_PORT=8125`, joined by
newlines. -/
def addedEnv (ip privateIp : String) : String :=
  "HOST_IP=" ++ ip ++ "\n" ++ "PRIVATE_IP=" ++ privateIp ++ "\n" ++
    "STATSD_HOST=" ++ privateIp ++ "\n" ++ "STATSD_PORT=8125"

/-- The per-instance preparation inside `Docker.run_containers.run`, up to
the `docker.run_container` call: append `added_env` to the supplied env
(just `added_env` when the env is empty), self-substitute the result, split
it into the non-empty container env lines, substitute the command args with
the substituted env, and substitute each volume's bind path and host key
(bind first, as in the source), rebuilding the volume dict.  Volumes are
`(host, bind, ro)` triples. -/
def runPrep (env command_args : String)
    (volumes : List (String × String × Bool)) (ip privateIp : String) :
    Except SubstError
      (List String × String × List (String × (String × Bool))) := do
  let e0 := if env = "" then addedEnv ip privateIp
            else env ++ "\n" ++ addedEnv ip privateIp
  let envS ← substitute_names e0 e0
  let container_env := (pySplit '\n' envS).filter (fun x => decide (x ≠ ""))
  let container_args ← substitute_names command_args envS
  let container_volumes ← volumes.foldlM
    (fun acc hv => do
      let bindS ← substitute_names hv.2.1 envS
      let hostS ← substitute_names hv.1 envS
      pure (dictSet acc hostS (bindS, hv.2.2)))
    ([] : List (String × (String × Bool)))
  pure (container_env, container_args, container_volumes)

/-- The claim's description of the same computation, for comparison with
`runPrep`: build the container environment by appending `HOST_IP`,
`PRIVATE_IP`, `STATSD_HOST` and `STATSD_PORT=8125` to the supplied env,
then expand every `$NAME` reference in the env itself, in the command
arguments and in the volume bind paths, using that resulting (expanded) env
as the substitution dictionary before invoking the container run. -/
def runPrepClaim (env command_args : String)
    (volumes : List (String × String × Bool)) (ip privateIp : String) :
    Except SubstError
      (List String × String × List (String × (String × Bool))) := do
  let appended := if env = "" then addedEnv ip privateIp
                  else env ++ "\n" ++ addedEnv ip privateIp
  let resultingEnv ← substitute_names appended appended
  let argsS ← substitute_names command_args resultingEnv
  let volsS ← volumes.foldlM
    (fun acc hv => do
      let bindS ← substitute_names hv.2.1 resultingEnv
      let hostS ← substitute_names hv.1 resultingEnv
      pure (dictSet acc hostS (bindS, hv.2.2)))
    ([] : List (String × (String × Bool)))
  pure ((pySplit '\n' resultingEnv).filter (fun x => decide (x ≠ "")),
        argsS, volsS)

/-- Claim C5: `available_instance` returns true for every running instance;
for a pending instance it returns true exactly when now minus the launch
time is under 120 seconds; for every other state it returns false. -/
theorem available_instance_spec (now : Int) (i : Instance) :
    available_instance now i = true ↔
      (i.state = "running" ∨
        (i.state = "pending" ∧ now - i.launchTime < 120)) := by
  unfold available_instance
  by_cases h1 : i.state = "running"
  · simp [h1]
  · by_cases h2 : i.state = "pending"
    · simp [h1, h2]
      omega
    · simp [h1, h2]

/-- Claim C6: `get_ami` selects the paravirtual AMI variant exactly when the
first two characters of the instance type are one of m1, m2, c1, t1 (hvm
otherwise), succeeds with the AMI the region's map holds for that variant,
and errors when the chosen variant is absent from the map. -/
theorem get_ami_spec (amis : List (String × String)) (t : String) :
    (∀ a, get_ami amis t = Except.ok a ↔
      alookup amis (claimVariant t) = some a) ∧
    (get_ami amis t = Except.error (claimVariant t) ↔
      alookup amis (claimVariant t) = none) := by
  have hv : (if t.take 2 ∈ ["m1", "m2", "c1", "t1"]
             then "paravirtual" else "hvm") = claimVariant t := by
    unfold claimVariant
    by_cases h : t.take 2 = "m1" ∨ t.take 2 = "m2" ∨ t.take 2 = "c1" ∨
        t.take 2 = "t1"
    · rw [if_pos (by simpa using h), if_pos h]
    · rw [if_neg (by simpa using h), if_neg h]
  unfold get_ami
  rw [hv]
  cases hl : alookup amis (claimVariant t) with
  | none => simp [hl]
  | some a => simp [hl]

theorem retryFrom_calls_le {E α : Type} (f : Nat → Except E α) (n : Nat) :
    ∀ fuel t, n - t ≤ fuel → (retryFrom f n t).2 ≤ n - t := by
  intro fuel
  induction fuel with
  | zero =>
      intro t ht
      rw [retryFrom]
      have hnt : ¬ t < n := by omega
      simp [hnt]
  | succ fuel ih =>
      intro t ht
      rw [retryFrom]
      by_cases h : t < n
      · simp only [h, dite_true]
        cases hf : f t with
        | ok a => simp; omega
        | error e =>
            simp only []
            have := ih (t + 1) (by omega)
            simp
            omega
      · simp [h]

theorem retryFrom_ok {E α : Type} (f : Nat → Except E α) (n : Nat) :
    ∀ fuel t k a, n - t ≤ fuel → t ≤ k → k < n → f k = Except.ok a →
      (∀ j, t ≤ j → j < k → ∃ e, f j = Except.error e) →
      (retryFrom f n t).1 = Except.ok a := by
  intro fuel
  induction fuel with
  | zero => intro t k a ht htk hkn _ _; omega
  | succ fuel ih =>
      intro t k a ht htk hkn hfk hprev
      rw [retryFrom]
      have h : t < n := by omega
      simp only [h, dite_true]
      by_cases he : t = k
      · subst he
        simp [hfk]
      · obtain ⟨e, hfe⟩ := hprev t (le_refl t) (by omega)
        simp only [hfe]
        exact ih (t + 1) k a (by omega) (by omega) hkn hfk
          (fun j h1 h2 => hprev j (by omega) h2)

theorem retryFrom_exhaust {E α : Type} (f : Nat → Except E α) (n : Nat) :
    ∀ fuel t, n - t ≤ fuel →
      (∀ j, t ≤ j → j < n → ∃ e, f j = Except.error e) →
      (retryFrom f n t).1 = Except.error () := by
  intro fuel
  induction fuel with
  | zero =>
      intro t ht _
      rw [retryFrom]
      have hnt : ¬ t < n := by omega
      simp [hnt]
  | succ fuel ih =>
      intro t ht hall
      rw [retryFrom]
      by_cases h : t < n
      · obtain ⟨e, hfe⟩ := hall t (le_refl t) h
        simp only [h, dite_true, hfe]
        exact ih (t + 1) (by omega) (fun j h1 h2 => hall j (by omega) h2)
      · simp [h]

/-- Claim C10: for `n ≥ 2`, the wrapper produced by `retry(attempts = n)`
invokes the wrapped function at most `n - 1` times, returns the result of
the first invocation that does not raise, and raises itself (rather than
returning a value) when every invocation raises. -/
theorem retry_spec {E α : Type} (f : Nat → Except E α) (n : Nat)
    (hn : 2 ≤ n) :
    (retryCall f n).2 ≤ n - 1 ∧
    (∀ k a, 1 ≤ k → k < n → f k = Except.ok a →
      (∀ j, 1 ≤ j → j < k → ∃ e, f j = Except.error e) →
      (retryCall f n).1 = Except.ok a) ∧
    ((∀ j, 1 ≤ j → j < n → ∃ e, f j = Except.error e) →
      (retryCall f n).1 = Except.error ()) := by
  refine ⟨?_, ?_, ?_⟩
  · exact retryFrom_calls_le f n (n - 1) 1 (by omega)
  · intro k a h1 h2 h3 h4
    exact retryFrom_ok f n (n - 1) 1 k a (by omega) h1 h2 h3 h4
  · intro hall
    exact retryFrom_exhaust f n (n - 1) 1 (by omega) hall

/-- Witness for C10 at a concrete input: with three attempts and a function
that fails on the first call and succeeds on the second, the wrapper
returns the second call's value after at most two invocations. -/
theorem retry_spec_witness :
    (retryCall (fun j => if j = 2 then Except.ok 7
                         else Except.error "boom") 3).1 = Except.ok 7 ∧
    (retryCall (fun j => if j = 2 then Except.ok 7
                         else Except.error "boom") 3).2 ≤ 2 := by
  have h := retry_spec (fun j => if j = 2 then Except.ok 7
                                 else Except.error "boom") 3 (by norm_num)
  constructor
  · refine h.2.1 2 7 (by norm_num) (by norm_num) (by simp) ?_
    intro j h1 h2
    have hj : j = 1 := by omega
    subst hj
    exact ⟨"boom", by simp⟩
  · exact h.1

theorem collectionMapGo_spec {E α : Type} (fn : BagInst → Except E α) :
    ∀ l : List BagInst,
      (collectionMapGo fn l).2 = l ∧ (collectionMapGo fn l).1 = l.map fn := by
  intro l
  induction l with
  | nil => simp [collectionMapGo]
  | cons b rest ih =>
      simp only [collectionMapGo, List.map_cons]
      exact ⟨by rw [ih.1], by rw [ih.2]⟩

/-- Claim C4: fanning `fn` out over a collection's live instances invokes
`fn` on every live instance (a recorded failure on one instance never
prevents the others from running), and the result list has one entry per
live instance, in input order, each entry being that instance's own `fn`
outcome. -/
theorem collection_map_isolation {E α : Type} (fn : BagInst → Except E α)
    (coll : List BagInst) :
    (collectionMap fn coll).2 = liveInstances coll ∧
    (collectionMap fn coll).1.length = (liveInstances coll).length ∧
    (collectionMap fn coll).1 = (liveInstances coll).map fn := by
  unfold collectionMap
  obtain ⟨h2, h1⟩ := collectionMapGo_spec fn (liveInstances coll)
  exact ⟨h2, by rw [h1]; simp, h1⟩

theorem delaySeq_shift (d M : Nat) :
    ∀ i, delaySeq d M (i + 1) = delaySeq (min (d * 2) M) M i := by
  intro i
  induction i with
  | zero => simp [delaySeq]
  | succ i ih => rw [delaySeq, ih, delaySeq]

theorem pingFrom_allfail (fetch : Nat → FetchOutcome) (ent : Nat → Nat)
    (attempts mj M : Nat) (hfail : ∀ k, fetch k = FetchOutcome.connError) :
    ∀ fuel a d, 1 ≤ a → a < attempts → attempts - a ≤ fuel →
      pingFrom fetch ent attempts mj M a d =
        ((List.range (attempts - a)).map
          (fun i => delaySeq d M i + ent (a + i) % (mj + 1)),
         PingResult.connError) := by
  intro fuel
  induction fuel with
  | zero => intro a d h1 h2 h3; omega
  | succ fuel ih =>
      intro a d h1 h2 h3
      rw [pingFrom]
      simp only [hfail a]
      by_cases hlast : a + 1 ≥ attempts
      · have ha : attempts - a = 1 := by omega
        rw [dif_pos hlast, ha]
        simp [List.range_succ, delaySeq]
      · have hrec := ih (a + 1) (min (d * 2) M) (by omega) (by omega)
          (by omega)
        rw [dif_neg hlast]
        simp only [hrec]
        have hsub : attempts - a = (attempts - (a + 1)) + 1 := by omega
        rw [hsub, List.range_succ_eq_map, List.map_cons, List.map_map]
        have htail :
            List.map ((fun i => delaySeq d M i + ent (a + i) % (mj + 1))
                ∘ Nat.succ) (List.range (attempts - (a + 1)))
            = List.map (fun i => delaySeq (min (d * 2) M) M i
                + ent (a + 1 + i) % (mj + 1))
                (List.range (attempts - (a + 1))) := by
          refine List.map_congr_left ?_
          intro i _
          simp only [Function.comp_apply, Nat.succ_eq_add_one]
          rw [delaySeq_shift]
          have hadd : a + (i + 1) = a + 1 + i := by omega
          rw [hadd]
        rw [htail]
        simp [delaySeq]

/-- Claim C7 (amended): on an all-connection-failure fetch oracle, the wait
before each retry is the current delay plus a jitter in `[0, max_jitter]`
(the modulus image of `randint`), with the delay doubling after each failure
capped at `max_delay`; after `attempts - 1` consecutive connection failures
the loop re-raises the `ConnectionError` (not a `PingError`).  A fetch that
completes without raising returns True, but an HTTP error response
propagates as `HTTPError` instead of returning True. -/
theorem ping_spec (fetch : Nat → FetchOutcome) (ent : Nat → Nat)
    (attempts d mj M : Nat) (hatt : 2 ≤ attempts) :
    ((∀ k, fetch k = FetchOutcome.connError) →
      Ping.ping fetch ent attempts d mj M =
        ((List.range (attempts - 1)).map
          (fun i => delaySeq d M i + ent (1 + i) % (mj + 1)),
         PingResult.connError)) ∧
    (fetch 1 = FetchOutcome.ok →
      Ping.ping fetch ent attempts d mj M = ([], PingResult.ok)) ∧
    (∀ s, fetch 1 = FetchOutcome.httpError s →
      Ping.ping fetch ent attempts d mj M = ([], PingResult.httpError s)) := by
  refine ⟨?_, ?_, ?_⟩
  · intro hfail
    exact pingFrom_allfail fetch ent attempts mj M hfail (attempts - 1) 1 d
      (le_refl 1) (by omega) (by omega)
  · intro hok
    unfold Ping.ping
    rw [pingFrom, hok]
  · intro s hs
    unfold Ping.ping
    rw [pingFrom, hs]

/-- Witness for C7 at a concrete input: with two attempts, initial delay
0.5 s and entropy 7, the single retry waits `50 + 7 % 21 = 57` centiseconds
and the connection error is re-raised. -/
theorem ping_spec_witness :
    Ping.ping (fun _ => FetchOutcome.connError) (fun _ => 7) 2 50 20 1500 =
      ([57], PingResult.connError) := by
  have h := (ping_spec (fun _ => FetchOutcome.connError) (fun _ => 7)
      2 50 20 1500 (by norm_num)).1 (fun k => rfl)
  rw [h]
  simp [List.range_succ, delaySeq]

/-- Claim C7 as stated is false on the code: with `attempts = 2` the loop
re-raises after a single connection failure (one wait), not after two, and
an HTTP error response (status ≥ 400) does not make ping return True — the
`HTTPError` propagates. -/
theorem ping_claim_counterexample :
    (Ping.ping (fun _ => FetchOutcome.connError) (fun _ => 0)
       2 50 20 1500).1.length = 1 ∧
    (Ping.ping (fun _ => FetchOutcome.httpError 500) (fun _ => 0)
       5 50 20 1500).2 = PingResult.httpError 500 := by
  constructor
  · unfold Ping.ping
    rw [pingFrom]
    rfl
  · unfold Ping.ping
    rw [pingFrom]


theorem reapLoop_none_iff (terminate : String → List String → Except Unit Unit) :
    ∀ m : List (String × List Instance),
      (reapLoop terminate m).2 = none ↔
        ∀ q ∈ m, terminate q.1 (q.2.map Instance.id) = Except.ok () := by
  intro m
  induction m with
  | nil => simp [reapLoop]
  | cons hd tl ih =>
      obtain ⟨region, insts⟩ := hd
      cases hterm : terminate region (insts.map Instance.id) with
      | ok u =>
          simp only [reapLoop, hterm]
          constructor
          · intro hnone q hq
            rcases List.mem_cons.mp hq with h | h
            · subst h; simpa using hterm
            · exact (ih.mp hnone) q h
          · intro hall
            exact ih.mpr (fun q hq => hall q (List.mem_cons_of_mem _ hq))
      | error e =>
          simp only [reapLoop, hterm]
          constructor
          · intro hnone; simp at hnone
          · intro hall
            have := hall (region, insts) (List.mem_cons_self _ _)
            simp [hterm] at this

theorem reapLoop_halts (terminate : String → List String → Except Unit Unit) :
    ∀ (pre : List (String × List Instance)) (region : String)
      (insts : List Instance) (post : List (String × List Instance)),
      (∀ q ∈ pre, terminate q.1 (q.2.map Instance.id) = Except.ok ()) →
      terminate region (insts.map Instance.id) = Except.error () →
      reapLoop terminate (pre ++ (region, insts) :: post) =
        (pre.map (fun q => (q.1, q.2.map Instance.id)) ++
          [(region, insts.map Instance.id)], some ()) := by
  intro pre
  induction pre with
  | nil =>
      intro region insts post _ hfail
      simp [reapLoop, hfail]
  | cons hd tl ih =>
      intro region insts post hpre hfail
      obtain ⟨r0, l0⟩ := hd
      have h0 := hpre (r0, l0) (List.mem_cons_self _ _)
      simp only [List.cons_append, reapLoop, h0, List.append_eq]
      rw [ih region insts post
        (fun q hq => hpre q (List.mem_cons_of_mem _ hq)) hfail]
      simp

/-- Claim C8 (amended): `reap_instances` replaces the whole free-pool map
with an empty map before issuing any termination, and the swap is never
rolled back; but a failing region's termination error is not swallowed — it
propagates out of the coroutine and the remaining regions' terminations are
never issued. -/
theorem reap_instances_spec
    (terminate : String → List String → Except Unit Unit) (p : Pool) :
    (reap_instances terminate p).1 = [] ∧
    ((reap_instances terminate p).2.2 = none ↔
      ∀ q ∈ p.instances, terminate q.1 (q.2.map Instance.id) = Except.ok ()) ∧
    (∀ pre region insts post,
      p.instances = pre ++ (region, insts) :: post →
      (∀ q ∈ pre, terminate q.1 (q.2.map Instance.id) = Except.ok ()) →
      terminate region (insts.map Instance.id) = Except.error () →
      (reap_instances terminate p).2 =
        (pre.map (fun q => (q.1, q.2.map Instance.id)) ++
          [(region, insts.map Instance.id)], some ())) := by
  refine ⟨rfl, ?_, ?_⟩
  · exact reapLoop_none_iff terminate p.instances
  · intro pre region insts post hsplit hpre hfail
    show reapLoop terminate p.instances = _
    rw [hsplit]
    exact reapLoop_halts terminate pre region insts post hpre hfail

/-- Witness for C8 at a concrete input: with three regions of which the
second one's termination raises, the free-pool map still comes back empty,
the first region is terminated, and the third is never reached. -/
theorem reap_instances_spec_witness :
    (reap_instances
      (fun r _ => if r = "us-west-2" then Except.error () else Except.ok ())
      ⟨[("us-east-1", [⟨"a", "us-east-1", "t1.micro", "running", 0,
          none, none⟩]),
        ("us-west-2", [⟨"b", "us-west-2", "t1.micro", "running", 0,
          none, none⟩]),
        ("eu-west-1", [⟨"c", "eu-west-1", "t1.micro", "running", 0,
          none, none⟩])], []⟩).1 = [] ∧
    (reap_instances
      (fun r _ => if r = "us-west-2" then Except.error () else Except.ok ())
      ⟨[("us-east-1", [⟨"a", "us-east-1", "t1.micro", "running", 0,
          none, none⟩]),
        ("us-west-2", [⟨"b", "us-west-2", "t1.micro", "running", 0,
          none, none⟩]),
        ("eu-west-1", [⟨"c", "eu-west-1", "t1.micro", "running", 0,
          none, none⟩])], []⟩).2 =
      ([("us-east-1", ["a"]), ("us-west-2", ["b"])], some ()) := by
  have h := reap_instances_spec
    (fun r _ => if r = "us-west-2" then Except.error () else Except.ok ())
    ⟨[("us-east-1", [⟨"a", "us-east-1", "t1.micro", "running", 0,
        none, none⟩]),
      ("us-west-2", [⟨"b", "us-west-2", "t1.micro", "running", 0,
        none, none⟩]),
      ("eu-west-1", [⟨"c", "eu-west-1", "t1.micro", "running", 0,
        none, none⟩])], []⟩
  refine ⟨h.1, ?_⟩
  have h3 := h.2.2
    [("us-east-1", [⟨"a", "us-east-1", "t1.micro", "running", 0,
      none, none⟩])]
    "us-west-2"
    [⟨"b", "us-west-2", "t1.micro", "running", 0, none, none⟩]
    [("eu-west-1", [⟨"c", "eu-west-1", "t1.micro", "running", 0,
      none, none⟩])]
    rfl
    (by intro q hq; simp only [List.mem_singleton] at hq; subst hq; rfl)
    rfl
  simpa using h3

/-- Claim C8 as stated is false on the code: `reap_instances` has no
try/except around the termination calls, so a raising
`terminate_instances` propagates instead of being logged and swallowed
(the free-pool map does remain empty). -/
theorem reap_claim_counterexample :
    (reap_instances (fun _ _ => Except.error ())
      ⟨[("us-west-2", [])], []⟩).2.2 = some () ∧
    (reap_instances (fun _ _ => Except.error ())
      ⟨[("us-west-2", [])], []⟩).1 = [] := by
  constructor
  · rfl
  · rfl

theorem poolGet_dictSet_self (m : List (String × List Instance)) (r : String)
    (v : List Instance) : poolGet (dictSet m r v) r = v := by
  unfold poolGet
  rw [alookup_dictSet_self]
  rfl

theorem poolGet_dictSet_ne (m : List (String × List Instance)) (r r' : String)
    (v : List Instance) (h : r' ≠ r) :
    poolGet (dictSet m r' v) r = poolGet m r := by
  unfold poolGet
  rw [alookup_dictSet_ne _ _ _ _ h]

/-- Claim C3: after `release_instances` on a pool with filters enabled,
every instance of the collection has both run tags set to the empty string
(emptied, not removed) and is appended to the free pool of its region; the
both-or-neither tag invariant on the pool's instances is preserved. -/
theorem release_instances_spec
    (p : Pool) (first : Instance) (rest : List Instance)
    (hreg : ∀ j ∈ first :: rest, j.regionName = first.regionName)
    (hinv : ∀ r, ∀ i ∈ poolGet p.instances r,
      tagEmpty i.runIdTag = tagEmpty i.uuidTag) :
    ∃ p', release_instances p (first :: rest) true = Except.ok p' ∧
      (∀ j ∈ first :: rest, ∃ j' ∈ poolGet p'.instances j.regionName,
        j'.id = j.id ∧ j'.runIdTag = some "" ∧ j'.uuidTag = some "") ∧
      (∀ r, ∀ i ∈ poolGet p'.instances r,
        tagEmpty i.runIdTag = tagEmpty i.uuidTag) := by
  refine ⟨_, rfl, ?_, ?_⟩
  · intro j hj
    rw [hreg j hj]
    refine ⟨Instance.detag j, ?_, rfl, rfl, rfl⟩
    show Instance.detag j ∈ poolGet (dictSet p.instances first.regionName
      (poolGet p.instances first.regionName ++
        (first :: rest).map Instance.detag)) first.regionName
    rw [poolGet_dictSet_self]
    exact List.mem_append_right _ (List.mem_map_of_mem _ hj)
  · intro r i hi
    by_cases hr : r = first.regionName
    · subst hr
      rw [poolGet_dictSet_self] at hi
      rcases List.mem_append.mp hi with h | h
      · exact hinv _ i h
      · rw [if_pos rfl] at h
        obtain ⟨j, hj, hji⟩ := List.mem_map.mp h
        rw [← hji]
        rfl
    · rw [poolGet_dictSet_ne _ _ _ _ (Ne.symm hr)] at hi
      exact hinv r i hi

/-- Witness for C3 at a concrete input: releasing a one-instance collection
tagged `(R1, C1)` into an empty pool empties both tags and lands the
instance in the `us-west-2` free list, preserving the tag invariant. -/
theorem release_instances_spec_witness :
    ∃ p', release_instances (Pool.mk [] [])
        [Instance.mk "a" "us-west-2" "t1.micro" "running" 0
          (some "R1") (some "C1")] true = Except.ok p' ∧
      (∀ j ∈ [Instance.mk "a" "us-west-2" "t1.micro" "running" 0
          (some "R1") (some "C1")],
        ∃ j' ∈ poolGet p'.instances j.regionName,
          j'.id = j.id ∧ j'.runIdTag = some "" ∧ j'.uuidTag = some "") ∧
      (∀ r, ∀ i ∈ poolGet p'.instances r,
        tagEmpty i.runIdTag = tagEmpty i.uuidTag) := by
  refine release_instances_spec (Pool.mk [] [])
    (Instance.mk "a" "us-west-2" "t1.micro" "running" 0
      (some "R1") (some "C1")) [] ?_ ?_
  · intro j hj
    simp only [List.mem_singleton] at hj
    subst hj
    rfl
  · intro r i hi
    simp [poolGet, alookup] at hi

theorem recoverStep_preserves (now : Int) (R U : String) (i j : Instance)
    (p : Pool)
    (h : ∃ lb, alookup p.recovered (R, U) = some lb ∧ i ∈ lb) :
    ∃ lb, alookup (recoverStep now p j).recovered (R, U) = some lb ∧
      i ∈ lb := by
  obtain ⟨lb, hlb, hib⟩ := h
  unfold recoverStep
  by_cases hav : available_instance now j = true
  · rw [if_neg (not_not_intro hav)]
    by_cases htr : truthyTag j.runIdTag = true ∧ truthyTag j.uuidTag = true
    · rw [if_pos htr]
      cases hr : j.runIdTag with
      | none => rw [hr] at htr; simp [truthyTag] at htr
      | some r' =>
          cases hu : j.uuidTag with
          | none => rw [hu] at htr; simp [truthyTag] at htr
          | some u' =>
              simp only [hr, hu]
              by_cases hkey : (r', u') = (R, U)
              · rw [hkey]
                refine ⟨_, alookup_dictSet_self _ _ _, ?_⟩
                rw [hlb]
                exact List.mem_append_left _ hib
              · rw [alookup_dictSet_ne _ _ _ _ hkey]
                exact ⟨lb, hlb, hib⟩
    · rw [if_neg htr]
      exact ⟨lb, hlb, hib⟩
  · rw [if_pos hav]
    exact ⟨lb, hlb, hib⟩

theorem recoverStep_adds (now : Int) (R U : String) (i : Instance) (p : Pool)
    (hav : available_instance now i = true)
    (hR : i.runIdTag = some R) (hU : i.uuidTag = some U)
    (hRne : R ≠ "") (hUne : U ≠ "") :
    ∃ lb, alookup (recoverStep now p i).recovered (R, U) = some lb ∧
      i ∈ lb := by
  unfold recoverStep
  rw [if_neg (not_not_intro hav)]
  have htr : truthyTag i.runIdTag = true ∧ truthyTag i.uuidTag = true := by
    rw [hR, hU]
    exact ⟨by simp [truthyTag, hRne], by simp [truthyTag, hUne]⟩
  rw [if_pos htr]
  simp only [hR, hU]
  refine ⟨_, alookup_dictSet_self _ _ _, ?_⟩
  exact List.mem_append_right _ (by simp)

theorem foldl_recoverStep_preserves (now : Int) (R U : String) (i : Instance) :
    ∀ (l : List Instance) (p : Pool),
      (∃ lb, alookup p.recovered (R, U) = some lb ∧ i ∈ lb) →
      ∃ lb, alookup (l.foldl (recoverStep now) p).recovered (R, U) =
        some lb ∧ i ∈ lb := by
  intro l
  induction l with
  | nil => intro p h; exact h
  | cons j tl ih =>
      intro p h
      exact ih _ (recoverStep_preserves now R U i j p h)

theorem recover_mem_bucket (now : Int) (observed : List Instance)
    (i : Instance) (R U : String)
    (hmem : i ∈ observed) (hav : available_instance now i = true)
    (hR : i.runIdTag = some R) (hU : i.uuidTag = some U)
    (hRne : R ≠ "") (hUne : U ≠ "") :
    ∃ lb, alookup (recover now observed).recovered (R, U) = some lb ∧
      i ∈ lb := by
  unfold recover
  have hgen : ∀ (l : List Instance) (p : Pool), i ∈ l →
      ∃ lb, alookup (l.foldl (recoverStep now) p).recovered (R, U) =
        some lb ∧ i ∈ lb := by
    intro l
    induction l with
    | nil => intro p h; cases h
    | cons j tl ih =>
        intro p hm
        rcases List.mem_cons.mp hm with h | h
        · subst h
          exact foldl_recoverStep_preserves now R U i tl _
            (recoverStep_adds now R U i p hav hR hU hRne hUne)
        · exact ih _ h
  exact hgen observed _ hmem

/-- Claim C2: an instance `recover()` observes with non-empty `RunId = R`
and `Uuid = U` tags and an available state is returned by a later
`request_instances(R, U, count, …)` (it lands in the recovery bucket and is
drained first), and the number of newly created cloud instances is the
count minus the recovered and matching free-pool instances (clamped at
zero) rather than the count. -/
theorem recovery_completeness
    (now : Int) (observed : List Instance) (i : Instance) (R U : String)
    (alloc : Nat → List Instance) (count : Int) (inst_type region : String)
    (hmem : i ∈ observed) (hav : available_instance now i = true)
    (hR : i.runIdTag = some R) (hU : i.uuidTag = some U)
    (hRne : R ≠ "") (hUne : U ≠ "") (hreg : region ∈ AWS_REGIONS) :
    ∃ insts pool created,
      request_instances (recover now observed) now alloc R U count
        inst_type region true = Except.ok (insts, pool, created) ∧
      (∃ j ∈ insts, j.id = i.id) ∧
      created = (count -
        (((locateRecovered (recover now observed) R U).1.length : Int) +
          ((locateExisting now
            (count - (locateRecovered (recover now observed) R U).1.length)
            inst_type region
            (locateRecovered (recover now observed) R U).2).1.length :
              Int))).toNat := by
  obtain ⟨lb, hlb, hib⟩ := recover_mem_bucket now observed i R U hmem hav
    hR hU hRne hUne
  have hrp : i ∈ (locateRecovered (recover now observed) R U).1 := by
    unfold locateRecovered
    rw [hlb]
    exact hib
  unfold request_instances
  rw [if_pos hreg]
  refine ⟨_, _, _, rfl, ?_, ?_⟩
  · refine ⟨Instance.withTags i R U, ?_, rfl⟩
    simp only [if_true]
    exact List.mem_map_of_mem _
      (List.mem_append_left _ (List.mem_append_left _ hrp))
  · simp only [List.length_append]
    split
    · rename_i hpos
      omega
    · rename_i hneg
      omega

/-- Witness for C2 at a concrete input (scenario E2): two instances tagged
`(R1, C1)` are recovered; `request_instances("R1","C1",3,…)` returns a
collection containing them and creates exactly `3 - 2 = 1` new instance. -/
theorem recovery_completeness_witness :
    ∃ insts pool created,
      request_instances
        (recover 0
          [Instance.mk "i1" "us-west-2" "t1.micro" "running" 0
            (some "R1") (some "C1"),
           Instance.mk "i2" "us-west-2" "t1.micro" "running" 0
            (some "R1") (some "C1")])
        0
        (fun n => List.replicate n
          (Instance.mk "new" "us-west-2" "t1.micro" "pending" 0 none none))
        "R1" "C1" 3 "t1.micro" "us-west-2" true
        = Except.ok (insts, pool, created) ∧
      (∃ j ∈ insts,
        j.id = (Instance.mk "i1" "us-west-2" "t1.micro" "running" 0
          (some "R1") (some "C1")).id) ∧
      created = ((3 : Int) -
        (((locateRecovered (recover 0
            [Instance.mk "i1" "us-west-2" "t1.micro" "running" 0
              (some "R1") (some "C1"),
             Instance.mk "i2" "us-west-2" "t1.micro" "running" 0
              (some "R1") (some "C1")]) "R1" "C1").1.length : Int) +
          ((locateExisting 0
            (3 - (locateRecovered (recover 0
              [Instance.mk "i1" "us-west-2" "t1.micro" "running" 0
                (some "R1") (some "C1"),
               Instance.mk "i2" "us-west-2" "t1.micro" "running" 0
                (some "R1") (some "C1")]) "R1" "C1").1.length)
            "t1.micro" "us-west-2"
            (locateRecovered (recover 0
              [Instance.mk "i1" "us-west-2" "t1.micro" "running" 0
                (some "R1") (some "C1"),
               Instance.mk "i2" "us-west-2" "t1.micro" "running" 0
                (some "R1") (some "C1")]) "R1" "C1").2).1.length :
              Int))).toNat :=
  recovery_completeness 0
    [Instance.mk "i1" "us-west-2" "t1.micro" "running" 0
      (some "R1") (some "C1"),
     Instance.mk "i2" "us-west-2" "t1.micro" "running" 0
      (some "R1") (some "C1")]
    (Instance.mk "i1" "us-west-2" "t1.micro" "running" 0
      (some "R1") (some "C1"))
    "R1" "C1"
    (fun n => List.replicate n
      (Instance.mk "new" "us-west-2" "t1.micro" "pending" 0 none none))
    3 "t1.micro" "us-west-2"
    (by decide) (by decide) rfl rfl (by decide) (by decide) (by decide)

/-- Claim C1: evaluation at the failing input: with an empty recovery
bucket and a free pool holding two available `t1.micro` instances,
`request_instances` with `count = 1` returns a collection of *two*
instances — the strict `>` in `_locate_existing_instances`'s break
condition lets the loop collect `count + 1` matching instances, so the
collection exceeds `count`. -/
theorem request_instances_overshoot :
    ∃ insts pool created,
      request_instances
        (Pool.mk [("us-west-2",
          [Instance.mk "i1" "us-west-2" "t1.micro" "running" 0 none none,
           Instance.mk "i2" "us-west-2" "t1.micro" "running" 0 none none])]
          [])
        0 (fun _ => []) "R1" "C1" 1 "t1.micro" "us-west-2" true
        = Except.ok (insts, pool, created) ∧
      insts.length = 2 ∧ created = 0 := by
  refine ⟨_, _, _, rfl, ?_, ?_⟩
  · rfl
  · rfl

theorem strData_append (a b : String) : (a ++ b).data = a.data ++ b.data :=
  rfl

theorem splitOnChar_ne_nil (sep : Char) (l : List Char) :
    splitOnChar sep l ≠ [] := by
  cases l with
  | nil => simp [splitOnChar]
  | cons c cs =>
      unfold splitOnChar
      by_cases h : c = sep
      · simp [h]
      · simp only [h, if_false]
        cases splitOnChar sep cs <;> simp

theorem splitOnChar_append_sep (sep : Char) (b : List Char) :
    ∀ a : List Char, splitOnChar sep (a ++ sep :: b) =
      splitOnChar sep a ++ splitOnChar sep b := by
  intro a
  induction a with
  | nil => simp [splitOnChar]
  | cons c cs ih =>
      by_cases h : c = sep
      · subst h
        simp [splitOnChar, ih]
      · rw [List.cons_append]
        rw [show splitOnChar sep (c :: (cs ++ sep :: b)) =
            (match splitOnChar sep (cs ++ sep :: b) with
             | [] => [[c]]
             | piece :: rest => (c :: piece) :: rest) from by
          conv_lhs => unfold splitOnChar
          rw [if_neg h]]
        rw [show splitOnChar sep (c :: cs) =
            (match splitOnChar sep cs with
             | [] => [[c]]
             | piece :: rest => (c :: piece) :: rest) from by
          conv_lhs => unfold splitOnChar
          rw [if_neg h]]
        rw [ih]
        cases hcs : splitOnChar sep cs with
        | nil => exact absurd hcs (splitOnChar_ne_nil sep cs)
        | cons p rest => simp

theorem splitOnChar_no_sep (sep : Char) (l : List Char)
    (h : ∀ c ∈ l, c ≠ sep) : splitOnChar sep l = [l] := by
  induction l with
  | nil => rfl
  | cons c cs ih =>
      have hc : c ≠ sep := h c (List.mem_cons_self _ _)
      unfold splitOnChar
      rw [if_neg hc, ih (fun x hx => h x (List.mem_cons_of_mem _ hx))]

theorem pySplit_pair (k v : String) (hk : ∀ c ∈ k.data, c ≠ '=')
    (hv : ∀ c ∈ v.data, c ≠ '=') :
    pySplit '=' (String.mk (k.data ++ '=' :: v.data)) = [k, v] := by
  unfold pySplit
  rw [show (String.mk (k.data ++ '=' :: v.data)).data
      = k.data ++ '=' :: v.data from rfl]
  rw [splitOnChar_append_sep]
  rw [splitOnChar_no_sep _ _ hk, splitOnChar_no_sep _ _ hv]
  rfl

theorem envStep_pair (acc : List (String × String)) (k v : String)
    (hk : ∀ c ∈ k.data, c ≠ '=') (hv : ∀ c ∈ v.data, c ≠ '=') :
    envStep acc (String.mk (k.data ++ '=' :: v.data)) = dictSet acc k v := by
  unfold envStep
  rw [pySplit_pair k v hk hv]

theorem pySplit_addedEnv (ip pip : String)
    (hip : ∀ c ∈ ip.data, c ≠ '\n') (hpip : ∀ c ∈ pip.data, c ≠ '\n') :
    pySplit '\n' (addedEnv ip pip) =
      ["HOST_IP=" ++ ip, "PRIVATE_IP=" ++ pip, "STATSD_HOST=" ++ pip,
       "STATSD_PORT=8125"] := by
  have hd : (addedEnv ip pip).data =
      ("HOST_IP=".data ++ ip.data) ++ '\n' ::
        (("PRIVATE_IP=".data ++ pip.data) ++ '\n' ::
          (("STATSD_HOST=".data ++ pip.data) ++ '\n' ::
            "STATSD_PORT=8125".data)) := by
    simp [addedEnv, strData_append]
  have hlit1 : ∀ x ∈ ("HOST_IP=" : String).data, x ≠ '\n' := by decide
  have hlit2 : ∀ x ∈ ("PRIVATE_IP=" : String).data, x ≠ '\n' := by decide
  have hlit3 : ∀ x ∈ ("STATSD_HOST=" : String).data, x ≠ '\n' := by decide
  have h1 : ∀ c ∈ "HOST_IP=".data ++ ip.data, c ≠ '\n' := by
    intro c hc
    rcases List.mem_append.mp hc with h | h
    · exact hlit1 c h
    · exact hip c h
  have h2 : ∀ c ∈ "PRIVATE_IP=".data ++ pip.data, c ≠ '\n' := by
    intro c hc
    rcases List.mem_append.mp hc with h | h
    · exact hlit2 c h
    · exact hpip c h
  have h3 : ∀ c ∈ "STATSD_HOST=".data ++ pip.data, c ≠ '\n' := by
    intro c hc
    rcases List.mem_append.mp hc with h | h
    · exact hlit3 c h
    · exact hpip c h
  have h4 : ∀ c ∈ ("STATSD_PORT=8125" : String).data, c ≠ '\n' := by decide
  unfold pySplit
  rw [hd, splitOnChar_append_sep, splitOnChar_append_sep,
    splitOnChar_append_sep]
  rw [splitOnChar_no_sep '\n' _ h1, splitOnChar_no_sep '\n' _ h2,
    splitOnChar_no_sep '\n' _ h3, splitOnChar_no_sep '\n' _ h4]
  rfl

theorem envDict_addedEnv_lines (ip pip : String)
    (hip : ∀ c ∈ ip.data, c ≠ '=') (hpip : ∀ c ∈ pip.data, c ≠ '=') :
    ∀ acc : List (String × String),
      List.foldl envStep acc
        ["HOST_IP=" ++ ip, "PRIVATE_IP=" ++ pip, "STATSD_HOST=" ++ pip,
         "STATSD_PORT=8125"] =
      dictSet (dictSet (dictSet (dictSet acc "HOST_IP" ip)
        "PRIVATE_IP" pip) "STATSD_HOST" pip) "STATSD_PORT" "8125" := by
  intro acc
  have e1 : ("HOST_IP=" ++ ip : String)
      = String.mk ("HOST_IP".data ++ '=' :: ip.data) := rfl
  have e2 : ("PRIVATE_IP=" ++ pip : String)
      = String.mk ("PRIVATE_IP".data ++ '=' :: pip.data) := rfl
  have e3 : ("STATSD_HOST=" ++ pip : String)
      = String.mk ("STATSD_HOST".data ++ '=' :: pip.data) := rfl
  simp only [List.foldl_cons, List.foldl_nil]
  rw [e1, envStep_pair _ _ _ (by decide) hip,
    e2, envStep_pair _ _ _ (by decide) hpip,
    e3, envStep_pair _ _ _ (by decide) hpip]
  rfl

/-- Claim C9: `Docker.run_containers` builds the container environment by
appending `HOST_IP`, `PRIVATE_IP`, `STATSD_HOST` (both the private IP) and
`STATSD_PORT=8125` to the supplied env — so the substitution dictionary
binds those four names to the instance's addresses, with the appended lines
overriding any user-supplied ones — and then expands the `$NAME` references
in the env itself, in the command arguments and in the volume bind paths
with that env as the substitution dictionary, as `runPrepClaim` states it,
before invoking the container run. -/
theorem run_containers_prep_spec (env command_args : String)
    (volumes : List (String × String × Bool)) (ip pip : String)
    (hip : ∀ c ∈ ip.data, c ≠ '=' ∧ c ≠ '\n')
    (hpip : ∀ c ∈ pip.data, c ≠ '=' ∧ c ≠ '\n') :
    runPrep env command_args volumes ip pip
      = runPrepClaim env command_args volumes ip pip ∧
    (alookup (envDict (if env = "" then addedEnv ip pip
        else env ++ "\n" ++ addedEnv ip pip)) "HOST_IP" = some ip ∧
     alookup (envDict (if env = "" then addedEnv ip pip
        else env ++ "\n" ++ addedEnv ip pip)) "PRIVATE_IP" = some pip ∧
     alookup (envDict (if env = "" then addedEnv ip pip
        else env ++ "\n" ++ addedEnv ip pip)) "STATSD_HOST" = some pip ∧
     alookup (envDict (if env = "" then addedEnv ip pip
        else env ++ "\n" ++ addedEnv ip pip)) "STATSD_PORT"
       = some "8125") := by
  have hfold : ∀ acc : List (String × String),
      List.foldl envStep acc
        ["HOST_IP=" ++ ip, "PRIVATE_IP=" ++ pip, "STATSD_HOST=" ++ pip,
         "STATSD_PORT=8125"] =
      dictSet (dictSet (dictSet (dictSet acc "HOST_IP" ip)
        "PRIVATE_IP" pip) "STATSD_HOST" pip) "STATSD_PORT" "8125" :=
    envDict_addedEnv_lines ip pip (fun c hc => (hip c hc).1)
      (fun c hc => (hpip c hc).1)
  have hdict : envDict (if env = "" then addedEnv ip pip
      else env ++ "\n" ++ addedEnv ip pip) =
      dictSet (dictSet (dictSet (dictSet
        (if env = "" then [] else envDict env) "HOST_IP" ip)
        "PRIVATE_IP" pip) "STATSD_HOST" pip) "STATSD_PORT" "8125" := by
    by_cases he : env = ""
    · rw [if_pos he, if_pos he]
      unfold envDict
      rw [pySplit_addedEnv ip pip (fun c hc => (hip c hc).2)
        (fun c hc => (hpip c hc).2)]
      exact hfold []
    · rw [if_neg he, if_neg he]
      unfold envDict
      have hsplit : pySplit '\n' (env ++ "\n" ++ addedEnv ip pip) =
          pySplit '\n' env ++
            ["HOST_IP=" ++ ip, "PRIVATE_IP=" ++ pip, "STATSD_HOST=" ++ pip,
             "STATSD_PORT=8125"] := by
        unfold pySplit
        rw [show (env ++ "\n" ++ addedEnv ip pip).data
            = env.data ++ '\n' :: (addedEnv ip pip).data by
          rw [strData_append, strData_append, List.append_assoc]
          rfl]
        rw [splitOnChar_append_sep, List.map_append]
        have := pySplit_addedEnv ip pip (fun c hc => (hip c hc).2)
          (fun c hc => (hpip c hc).2)
        unfold pySplit at this
        rw [this]
      rw [hsplit, List.foldl_append]
      exact hfold _
  refine ⟨rfl, ?_, ?_, ?_, ?_⟩
  · rw [hdict, alookup_dictSet_ne _ _ _ _ (by decide),
      alookup_dictSet_ne _ _ _ _ (by decide),
      alookup_dictSet_ne _ _ _ _ (by decide), alookup_dictSet_self]
  · rw [hdict, alookup_dictSet_ne _ _ _ _ (by decide),
      alookup_dictSet_ne _ _ _ _ (by decide), alookup_dictSet_self]
  · rw [hdict, alookup_dictSet_ne _ _ _ _ (by decide), alookup_dictSet_self]
  · rw [hdict, alookup_dictSet_self]

/-- Witness for C9 at a concrete input: a user env line, an argument
referencing `$HOST_IP` and one volume, with concrete instance addresses. -/
theorem run_containers_prep_spec_witness :
    runPrep "FOO=1" "run $HOST_IP" [("/data", "/srv", true)]
        "1.2.3.4" "10.0.0.1"
      = runPrepClaim "FOO=1" "run $HOST_IP" [("/data", "/srv", true)]
        "1.2.3.4" "10.0.0.1" ∧
    (alookup (envDict (if ("FOO=1" : String) = ""
        then addedEnv "1.2.3.4" "10.0.0.1"
        else "FOO=1" ++ "\n" ++ addedEnv "1.2.3.4" "10.0.0.1"))
      "HOST_IP" = some "1.2.3.4" ∧
     alookup (envDict (if ("FOO=1" : String) = ""
        then addedEnv "1.2.3.4" "10.0.0.1"
        else "FOO=1" ++ "\n" ++ addedEnv "1.2.3.4" "10.0.0.1"))
      "PRIVATE_IP" = some "10.0.0.1" ∧
     alookup (envDict (if ("FOO=1" : String) = ""
        then addedEnv "1.2.3.4" "10.0.0.1"
        else "FOO=1" ++ "\n" ++ addedEnv "1.2.3.4" "10.0.0.1"))
      "STATSD_HOST" = some "10.0.0.1" ∧
     alookup (envDict (if ("FOO=1" : String) = ""
        then addedEnv "1.2.3.4" "10.0.0.1"
        else "FOO=1" ++ "\n" ++ addedEnv "1.2.3.4" "10.0.0.1"))
      "STATSD_PORT" = some "8125") :=
  run_containers_prep_spec "FOO=1" "run $HOST_IP" [("/data", "/srv", true)]
    "1.2.3.4" "10.0.0.1" (by decide) (by decide)

end Loads
